import Mathlib

/-!
Shallow embedding of the `watcher` library (watcher.py, ansi_color.py) and
proofs about its line-queue, pattern-search and send operations.

Conventions of the embedding:
* A Python string-or-None value is `Option String` (`none` = Python `None`).
* A compiled regular expression is modelled by the truth function of its
  `search` method, `Pat := String → Bool`; a returned match object is
  represented by the matched line.
* Wall-clock time is made explicit: `elapsed k` is the value of
  `time.time() - start` observed at the `k`-th iteration of a polling loop.
* Queue records carry the source name and the line; the source also stamps
  each record with `time.time()`, which no claim depends on and which is
  omitted from the record.
* Python exceptions of fallible operations are `Option`/`PyResult` results.
-/

namespace Watcher

/-- A record placed on a `_ScanQueue`'s private FIFO and forwarded to the
display queue: `{"ts": time.time(), "name": self.name, "line": line}`
(timestamp omitted, see module conventions). -/
structure Rec where
  name : String
  line : Option String
deriving Repr, DecidableEq

/-- State of a `_ScanQueue`: the private FIFO `q` (front = oldest), the
sequence of records forwarded to the display queue (`disper.put`), the
`_closed` flag and the optional line transformer `xformer`. -/
structure ScanQueue where
  name : String
  xformer : Option (Option String → Option String)
  q : List Rec
  disp : List Rec
  closed : Bool

/-- The filter condition of `_ScanQueue.put`:
`line is not None and not (isinstance(line, str) and not len(line))`,
restricted to string-or-None lines. -/
def keepLine : Option String → Bool
  | none => false
  | some s => !(s == "")

/-- `if self.xformer: line = self.xformer(line)` — the rebinding of `line`
at the top of `_ScanQueue.put`. -/
def applyXf (xf : Option (Option String → Option String))
    (line : Option String) : Option String :=
  match xf with
  | some f => f line
  | none => line

/-- The state change performed by the body of `_ScanQueue.put` (after the
`assert not self.closed()` has passed): apply the transformer, then append
the record to the display sequence and the private FIFO unless the line is
`None` or the empty string. -/
def putPure (sq : ScanQueue) (line : Option String) : ScanQueue :=
  if keepLine (applyXf sq.xformer line) then
    { sq with
      q := sq.q ++ [⟨sq.name, applyXf sq.xformer line⟩],
      disp := sq.disp ++ [⟨sq.name, applyXf sq.xformer line⟩] }
  else sq

/-- `_ScanQueue.put`: asserts the queue is not closed (modelled as `none`,
the assertion failure), then runs `putPure`. -/
def ScanQueue.put (sq : ScanQueue) (line : Option String) : Option ScanQueue :=
  if sq.closed then none else some (putPure sq line)

/-- `_ScanQueue.close`: `self.put("<<EOF>>"); self._closed = True`. -/
def ScanQueue.close (sq : ScanQueue) : Option ScanQueue :=
  (sq.put (some "<<EOF>>")).map fun sq2 => { sq2 with closed := true }

/-- One event produced by `self.fh.readline()` inside the reader worker:
either a line (where `""` is Python's EOF result) or a raised exception. -/
inductive ReadEvent where
  | line (s : String) : ReadEvent
  | exn (msg : String) : ReadEvent
deriving Repr, DecidableEq

/-- The sentinel text put on a read exception:
`"<<Exception on stream: %s>>" % (e)`. -/
def excSentinel (msg : String) : String :=
  "<<Exception on stream: " ++ msg ++ ">>"

/-- The whitespace characters stripped by Python's `str.strip`/`str.rstrip`
(ASCII subset). -/
def pyWhitespace (c : Char) : Bool :=
  c == ' ' || c == '\t' || c == '\n' || c == '\r' || c == '\x0b' || c == '\x0c'

/-- Python `str.rstrip()`: drop trailing whitespace. -/
def pyRstrip (s : String) : String :=
  ((s.toList.reverse.dropWhile pyWhitespace).reverse).asString

/-- Python `str.strip()`: drop leading and trailing whitespace. -/
def pyStrip (s : String) : String :=
  (((s.toList.dropWhile pyWhitespace).reverse.dropWhile pyWhitespace).reverse).asString

/-- `_ScanQueue.readLineAndQPut`, the reader worker, driven by the list of
results of successive `readline()` calls. The loop guard `while not
self.closed()` is re-checked each iteration; an exception puts the
exception sentinel and calls `close`, an empty read calls `close`, and any
other line is `rstrip`-ped and `put`. `none` means the worker is still
blocked in `readline` (the event list ended without EOF or exception), so
there is no final state. -/
def readWorker (sq : ScanQueue) : List ReadEvent → Option ScanQueue
  | [] => if sq.closed then some sq else none
  | ev :: rest =>
    if sq.closed then some sq
    else
      match ev with
      | .exn m => (sq.put (some (excSentinel m))).bind ScanQueue.close
      | .line l =>
        if l = "" then sq.close
        else (sq.put (some (pyRstrip l))).bind fun sq2 => readWorker sq2 rest

/-- A sequence of `put` calls (used to state the fan-out ordering claim). -/
def putList (sq : ScanQueue) : List (Option String) → Option ScanQueue
  | [] => some sq
  | l :: ls => (sq.put l).bind fun sq2 => putList sq2 ls

/-- A compiled regular expression, modelled by the truthiness of
`pat.search(line)`. -/
abbrev Pat := String → Bool

/-- Outcome of one `Watcher._internalSearcher` call: `found m` is `return m`,
`failPatFound` is the raised `WatcherFailPatFoundException`, `notFound` is
the raised `WatcherNotFoundException`, and `nothing` is `return None`. -/
inductive SearchOutcome where
  | found (line : String) : SearchOutcome
  | failPatFound : SearchOutcome
  | notFound : SearchOutcome
  | nothing : SearchOutcome
deriving Repr, DecidableEq

/-- The drain loop of `Watcher._internalSearcher` over the FIFO contents:
pop records while the queue is non-empty; skip a record whose line is
`None` or empty; otherwise test the failure patterns in order (raising on
the first match), then the success pattern (returning the match). After
the loop, raise not-found if the queue is closed, else return `None`.
Returns the outcome and the remaining queue contents. -/
def searchDrain (pat : Pat) (failpats : List Pat) (closed : Bool) :
    List Rec → SearchOutcome × List Rec
  | [] => ((if closed then .notFound else .nothing), [])
  | v :: rest =>
    match v.line with
    | none => searchDrain pat failpats closed rest
    | some line =>
      if line = "" then searchDrain pat failpats closed rest
      else if (failpats.find? fun fp => fp line).isSome then (.failPatFound, rest)
      else if pat line then (.found line, rest)
      else searchDrain pat failpats closed rest

/-- `Watcher._internalSearcher(q, pat, failpats)` acting on a queue state. -/
def internalSearcher (pat : Pat) (failpats : List Pat) (sq : ScanQueue) :
    SearchOutcome × ScanQueue :=
  let r := searchDrain pat failpats sq.closed sq.q
  (r.1, { sq with q := r.2 })

/-- Result of a `Watcher.watchFor` call: a returned match, or one of the
raised exceptions (`WatcherTimeoutException`, `WatcherNotFoundException`,
`WatcherFailPatFoundException`, or the "queue not found"
`WatcherException`); `running` means the modelling fuel ran out while the
loop was still polling. -/
inductive WatchResult where
  | found (m : String) : WatchResult
  | timeoutErr : WatchResult
  | notFoundErr : WatchResult
  | failPatErr : WatchResult
  | queueNotFound : WatchResult
  | running : WatchResult
deriving Repr, DecidableEq

/-- The polling loop of `Watcher.watchFor` (lines after the queue has been
resolved): at iteration `k`, first raise Timeout if
`time.time() > start + timeout` (i.e. `timeout < elapsed k`), else run the
internal searcher; a non-`None` result is returned, exceptions propagate,
and `None` sleeps `iterdelay` and retries. `fuel` bounds the number of
modelled iterations. -/
def watchForAux (pat : Pat) (failpats : List Pat) (timeout : ℚ)
    (elapsed : ℕ → ℚ) : ℕ → ℕ → ScanQueue → WatchResult × ScanQueue
  | 0, _, sq => (.running, sq)
  | fuel + 1, k, sq =>
    if timeout < elapsed k then (.timeoutErr, sq)
    else
      match internalSearcher pat failpats sq with
      | (.found m, sq') => (.found m, sq')
      | (.failPatFound, sq') => (.failPatErr, sq')
      | (.notFound, sq') => (.notFoundErr, sq')
      | (.nothing, sq') => watchForAux pat failpats timeout elapsed fuel (k + 1) sq'

/-- Python `dict` assignment `d[k] = v` on an insertion-ordered
association list. -/
def dictSet : List (String × ScanQueue) → String → ScanQueue →
    List (String × ScanQueue)
  | [], k, v => [(k, v)]
  | (k', v') :: rest, k, v =>
    if k' == k then (k, v) :: rest else (k', v') :: dictSet rest k v

/-- State of a `Watcher` endpoint. Input/output streams and the process
handle are external resources, represented by opaque numeric identifiers.
The display queue, exit-watch thread and creation counter are outside the
model. -/
structure WatcherState where
  name : String
  xformer : Option (Option String → Option String)
  queues : List (String × ScanQueue)
  istream : Option ℕ
  proc_handle : Option ℕ
  started : Bool
  retcode : Option ℤ

/-- A `_ScanQueue` as freshly constructed by `__init__` (empty FIFO, open). -/
def freshQueue (name : String) (xf : Option (Option String → Option String)) :
    ScanQueue :=
  { name := name, xformer := xf, q := [], disp := [], closed := false }

/-- `Watcher.subprocess(cmdargs)`: if `self.started`, print an error and
return `None` (second component `false`); otherwise record the Popen
handle, take its stdin as the input stream, create the `stdout`/`stderr`
scan queues, start the exit watcher (external) and set `started`.
`hproc`/`hstdin` identify the externally created process and its stdin. -/
def WatcherState.subprocess (w : WatcherState) (_cmdargs : List String)
    (hproc hstdin : ℕ) : WatcherState × Bool :=
  if w.started then (w, false)
  else
    (({ w with
        proc_handle := some hproc,
        istream := some hstdin,
        queues :=
          dictSet (dictSet w.queues "stdout"
              (freshQueue (w.name ++ ":stdout") w.xformer))
            "stderr" (freshQueue (w.name ++ ":stderr") w.xformer),
        started := true }, true))

/-- `Watcher.socket(host)`: if `self.started`, print an error and return
`None`; otherwise connect (external, identified by `hsock`), take the
socket as the input stream and create a single scan queue under the
watcher's own name. -/
def WatcherState.socket (w : WatcherState) (_host : String × ℕ)
    (hsock : ℕ) : WatcherState × Bool :=
  if w.started then (w, false)
  else
    (({ w with
        istream := some hsock,
        queues := dictSet w.queues w.name (freshQueue w.name w.xformer),
        started := true }, true))

/-- `Watcher.serial(port, speed)`: if the `serial` module is unavailable,
print an error and return `None`; then, if `self.started`, print an error
and return `None`; otherwise open the port (external, `hser`) and create a
single scan queue under the watcher's own name. -/
def WatcherState.serial (w : WatcherState) (serialAvailable : Bool)
    (_port : String) (_speed : ℕ) (hser : ℕ) : WatcherState × Bool :=
  if !serialAvailable then (w, false)
  else if w.started then (w, false)
  else
    (({ w with
        istream := some hser,
        queues := dictSet w.queues w.name (freshQueue w.name w.xformer),
        started := true }, true))

/-- The argument vector built by `Watcher.ssh`. -/
def sshArgs (user host : String) (port : Option ℕ) : List String :=
  ["ssh", "-t", "-t", "-o", "StrictHostKeyChecking=no",
    user ++ "@" ++ host] ++
    (match port with
     | some p => ["-p", toString p]
     | none => [])

/-- `Watcher.ssh(user, host)`: after its own `self.started` guard, delegates
to `subprocess` with the ssh argument vector. -/
def WatcherState.ssh (w : WatcherState) (user host : String)
    (port : Option ℕ) (hproc hstdin : ℕ) : WatcherState × Bool :=
  if w.started then (w, false)
  else w.subprocess (sshArgs user host port) hproc hstdin

/-- The target-queue resolution at the top of `Watcher.watchFor`: with
exactly one queue use it; with exactly two use `"stderr"` when requested,
else `"stdout"`. With any other number of queues the Python local `qname`
is never bound (a `NameError`), modelled as resolution failure. -/
def resolveQName (w : WatcherState) (useStderr : Bool) : Option String :=
  if w.queues.length == 1 then (w.queues.head?).map Prod.fst
  else if w.queues.length == 2 then
    some (if useStderr then "stderr" else "stdout")
  else none

/-- `Watcher.watchFor(pattern, ...)`: resolve the target queue (a missing
queue raises the "queue not found" `WatcherException`), then run the
timeout/search polling loop, writing the drained queue state back. -/
def WatcherState.watchFor (w : WatcherState) (pat : Pat)
    (failpats : List Pat) (useStderr : Bool) (timeout : ℚ)
    (elapsed : ℕ → ℚ) (fuel : ℕ) : WatchResult × WatcherState :=
  match resolveQName w useStderr with
  | none => (.queueNotFound, w)
  | some qname =>
    match w.queues.lookup qname with
    | none => (.queueNotFound, w)
    | some sq =>
      let r := watchForAux pat failpats timeout elapsed fuel 0 sq
      (r.1, { w with queues := dictSet w.queues qname r.2 })

/-- Result of a Python call: a value or a raised exception. -/
inductive PyResult (α : Type) where
  | ok (a : α) : PyResult α
  | exn (msg : String) : PyResult α
deriving Repr, DecidableEq

/-- The exception raised by `json.dump(js)`: the `json` module's `dump`
serializer writes to a file object and requires two positional arguments
(`obj`, `fp`); the source calls it with only `js`, so CPython raises
`TypeError` before any serialization output is produced. (`json.dumps`
is the one-argument to-string serializer.) -/
def json_dump_single_arg {α : Type} (_v : α) : PyResult String :=
  .exn "TypeError: dump() missing 1 required positional argument: fp"

/-- The argument form of a `Watcher.send` call: `raw=` bytes, `json=` a
value, or positional text pieces (non-strings already via `str()`). -/
inductive SendForm (α : Type) where
  | raw (b : List ℕ) : SendForm α
  | js (v : α) : SendForm α
  | text (args : List String) : SendForm α

/-- The UTF-8 encoding of one code point, as a byte list. -/
def utf8EncodeChar (c : Char) : List ℕ :=
  let n := c.toNat
  if n < 0x80 then [n]
  else if n < 0x800 then [0xC0 + n / 64, 0x80 + n % 64]
  else if n < 0x10000 then
    [0xE0 + n / 4096, 0x80 + (n / 64) % 64, 0x80 + n % 64]
  else
    [0xF0 + n / 262144, 0x80 + (n / 4096) % 64, 0x80 + (n / 64) % 64,
      0x80 + n % 64]

/-- UTF-8 encoding, `str.encode("utf-8")`, as a byte list. -/
def encodeUtf8 (s : String) : List ℕ :=
  (s.toList.map utf8EncodeChar).flatten

/-- `Watcher.send(*args, **kwargs)`: with no input stream the whole body is
skipped (no-op, `ok none`); `raw` bytes go to `sendall` verbatim; `json`
evaluates `"".join([json.dump(js), "\n"])`, whose `json.dump(js)` call
raises; positional pieces are each stripped, joined with single spaces,
terminated with CRLF and UTF-8 encoded. The result is the byte sequence
handed to `self.istream.sendall` (`none` when nothing was written); the
Python function itself returns `None`. -/
def WatcherState.send {α : Type} (w : WatcherState) (form : SendForm α) :
    PyResult (Option (List ℕ)) :=
  match w.istream with
  | none => .ok none
  | some _ =>
    match form with
    | .raw b => .ok (some b)
    | .js v =>
      match json_dump_single_arg v with
      | .exn m => .exn m
      | .ok s => .ok (some (encodeUtf8 (s ++ "\n")))
    | .text args =>
      .ok (some (encodeUtf8
        (String.intercalate " " (args.map pyStrip) ++ "\r\n")))

/-- A record whose line is one of the two terminal sentinel texts. -/
def isSentinelRec (r : Rec) : Bool :=
  r.line == some "<<EOF>>" ||
    (match r.line with
     | some s => "<<Exception on stream: ".toList.isPrefixOf s.toList
     | none => false)

/-- How a stream of read events first terminates: by an empty (EOF) read,
by a raised exception, or not at all within the observed events. -/
inductive TermKind where
  | eof : TermKind
  | exc (msg : String) : TermKind
  | noTerm : TermKind
deriving Repr, DecidableEq

/-- The first termination event of a read-event stream. -/
def firstTerminal : List ReadEvent → TermKind
  | [] => .noTerm
  | .exn m :: _ => .exc m
  | .line l :: rest => if l = "" then .eof else firstTerminal rest

/-- The ordinary line texts the reader worker delivers before terminating:
lines before the first termination event, `rstrip`-ped, with those that
become empty dropped. -/
def keptLines : List ReadEvent → List String
  | [] => []
  | .exn _ :: _ => []
  | .line l :: rest =>
    if l = "" then []
    else if pyRstrip l = "" then keptLines rest
    else pyRstrip l :: keptLines rest

/-- The terminal records the reader worker delivers for a given termination
kind. -/
def sentinelRecs (name : String) : TermKind → List Rec
  | .eof => [⟨name, some "<<EOF>>"⟩]
  | .exc m => [⟨name, some (excSentinel m)⟩, ⟨name, some "<<EOF>>"⟩]
  | .noTerm => []

/-- The record invariant of the private FIFO: no record's line is `None` or
the empty string. -/
def recInv (sq : ScanQueue) : Prop :=
  ∀ r ∈ sq.q, r.line ≠ none ∧ r.line ≠ some ""

/-- A freshly constructed queue named `"w"` with no transformer. -/
def sampleQueue : ScanQueue := freshQueue "w" none

/-- An empty, closed queue (a drained stream after its EOF was consumed). -/
def sampleClosedQueue : ScanQueue := { sampleQueue with closed := true }

/-- An endpoint whose single queue is `sampleClosedQueue`, with no input
sink attached. -/
def sampleClosedWatcher : WatcherState :=
  { name := "w", xformer := none, queues := [("q", sampleClosedQueue)],
    istream := none, proc_handle := none, started := false, retcode := none }

/-- An endpoint that has already attached a subprocess stream. -/
def sampleStartedWatcher : WatcherState :=
  { name := "w", xformer := none, queues := [], istream := some 0,
    proc_handle := some 1, started := true, retcode := none }

/-- An open queue holding a batch of three good/bad/later lines. -/
def sampleBatchQueue : ScanQueue :=
  { name := "w", xformer := none,
    q := [⟨"w", some "ok"⟩, ⟨"w", some "bad"⟩, ⟨"w", some "later"⟩],
    disp := [], closed := false }

/-- An endpoint whose single queue is `sampleBatchQueue`. -/
def sampleBatchWatcher : WatcherState :=
  { name := "w", xformer := none, queues := [("q", sampleBatchQueue)],
    istream := none, proc_handle := none, started := false, retcode := none }

/-- `sampleQueue` right after its `close()`: the EOF sentinel is queued and
the queue is closed. -/
def sampleEofQueue : ScanQueue :=
  { name := "w", xformer := none, q := [⟨"w", some "<<EOF>>"⟩],
    disp := [⟨"w", some "<<EOF>>"⟩], closed := true }

/-- An endpoint whose single queue is `sampleEofQueue`. -/
def sampleEofWatcher : WatcherState :=
  { name := "w", xformer := none, queues := [("q", sampleEofQueue)],
    istream := none, proc_handle := none, started := false, retcode := none }

end Watcher

namespace ansi_color

/-- `CONFIG["colors"]`. -/
def colors : List String :=
  ["black", "red", "green", "yellow", "blue", "magenta", "cyan", "white",
    "nochange"]

/-- `CONFIG["styles"]`. -/
def styles : List String :=
  ["normal", "bold", "dim", "italic", "underline", "blink", "fastblink",
    "reverse", "hide", "strikethrough", "nochange"]

/-- The function attributes `getnextcolor.index` / `getnextstyle.index`
(each defaulting to 0 before first use). -/
structure AnsiState where
  colorIndex : ℕ
  styleIndex : ℕ
deriving Repr, DecidableEq

/-- `getnextcolor()`: increment its counter, then return
`CONFIG["colors"][1 + (getnextcolor.index % (len(CONFIG["colors"]) - 2))]`. -/
def getnextcolor (s : AnsiState) : AnsiState × String :=
  let i := s.colorIndex + 1
  ({ s with colorIndex := i }, colors.getD (1 + i % (colors.length - 2)) "")

/-- `getnextstyle()`: increment its own counter, then return
`CONFIG["styles"][0 + (getnextcolor.index % (len(CONFIG["styles"]) - 1))]`
— note the source indexes by the *color* counter, which this call does not
change. -/
def getnextstyle (s : AnsiState) : AnsiState × String :=
  ({ s with styleIndex := s.styleIndex + 1 },
    styles.getD (0 + s.colorIndex % (styles.length - 1)) "")

/-- `n` successive `getnextcolor()` calls (results discarded). -/
def colorCalls : ℕ → AnsiState → AnsiState
  | 0, s => s
  | n + 1, s => colorCalls n (getnextcolor s).1

end ansi_color

/-! ## Helper lemmas -/

namespace Watcher

theorem put_open (sq : ScanQueue) (l : Option String) (hc : sq.closed = false) :
    sq.put l = some (putPure sq l) := by
  simp [ScanQueue.put, hc]

theorem putPure_name (sq : ScanQueue) (l : Option String) :
    (putPure sq l).name = sq.name := by
  unfold putPure
  split <;> rfl

theorem putPure_closed (sq : ScanQueue) (l : Option String) :
    (putPure sq l).closed = sq.closed := by
  unfold putPure
  split <;> rfl

theorem putPure_xformer (sq : ScanQueue) (l : Option String) :
    (putPure sq l).xformer = sq.xformer := by
  unfold putPure
  split <;> rfl

theorem keepLine_iff (o : Option String) :
    keepLine o = true ↔ o ≠ none ∧ o ≠ some "" := by
  cases o with
  | none => simp [keepLine]
  | some s => simp [keepLine]

theorem excSentinel_ne_empty (m : String) : excSentinel m ≠ "" := by
  intro h
  have h1 : (excSentinel m).length = 0 := h ▸ rfl
  unfold excSentinel at h1
  rw [String.length_append, String.length_append] at h1
  have h2 : ("<<Exception on stream: " : String).length = 23 := rfl
  have h3 : (">>" : String).length = 2 := rfl
  omega

theorem keepLine_excSentinel (m : String) :
    keepLine (some (excSentinel m)) = true := by
  simp [keepLine]
  exact excSentinel_ne_empty m

/-- `putPure` on a transformer-free queue. -/
theorem putPure_none (sq : ScanQueue) (l : Option String)
    (hx : sq.xformer = none) :
    putPure sq l =
      if keepLine l then
        { sq with q := sq.q ++ [⟨sq.name, l⟩], disp := sq.disp ++ [⟨sq.name, l⟩] }
      else sq := by
  simp [putPure, applyXf, hx]

end Watcher

namespace Watcher

/-- The searcher loop exits an empty FIFO with not-found iff it is closed. -/
theorem searchDrain_nil (pat : Pat) (failpats : List Pat) (closed : Bool) :
    searchDrain pat failpats closed [] =
      ((if closed then .notFound else .nothing), []) := rfl

/-- On an empty, closed queue the polling loop raises not-found on its first
iteration (before any timeout can fire), leaving the queue unchanged. -/
theorem watchForAux_closed_empty (pat : Pat) (failpats : List Pat)
    (timeout : ℚ) (elapsed : ℕ → ℚ) (fuel : ℕ) (sq : ScanQueue)
    (hq : sq.q = []) (hc : sq.closed = true) (ht : elapsed 0 ≤ timeout) :
    watchForAux pat failpats timeout elapsed (fuel + 1) 0 sq =
      (.notFoundErr, sq) := by
  obtain ⟨n, xf, q, d, c⟩ := sq
  simp only at hq hc
  subst hq hc
  have hnt : ¬ timeout < elapsed 0 := not_lt.mpr ht
  simp [watchForAux, hnt, internalSearcher, searchDrain]

/-- Reduction of `watchFor` on an endpoint with a single attached queue. -/
theorem watchFor_single (w : WatcherState) (qn : String) (sq : ScanQueue)
    (pat : Pat) (failpats : List Pat) (useStderr : Bool) (timeout : ℚ)
    (elapsed : ℕ → ℚ) (fuel : ℕ) (hw : w.queues = [(qn, sq)]) :
    w.watchFor pat failpats useStderr timeout elapsed fuel =
      ((watchForAux pat failpats timeout elapsed fuel 0 sq).1,
        { w with
          queues :=
            [(qn, (watchForAux pat failpats timeout elapsed fuel 0 sq).2)] }) := by
  simp [WatcherState.watchFor, resolveQName, hw, List.lookup, dictSet]

end Watcher

namespace Watcher

/-- **C1**: For every compiled pattern `p` and every configured timeout value
(any timeout the first poll iteration does not already exceed), calling
`watchFor(p)` on an endpoint whose selected queue is CLOSED and empty
raises the not-found error — never the timeout error — and leaves the
endpoint unchanged, so repeated calls on the same closed-and-empty queue
keep raising not-found. -/
theorem watchFor_closed_empty_notFound (w : WatcherState) (qn : String)
    (sq : ScanQueue) (pat pat2 : Pat) (failpats failpats2 : List Pat)
    (useStderr useStderr2 : Bool) (timeout timeout2 : ℚ)
    (elapsed elapsed2 : ℕ → ℚ) (fuel fuel2 : ℕ)
    (hw : w.queues = [(qn, sq)]) (hq : sq.q = []) (hc : sq.closed = true)
    (ht : elapsed 0 ≤ timeout) (ht2 : elapsed2 0 ≤ timeout2) :
    w.watchFor pat failpats useStderr timeout elapsed (fuel + 1) =
      (.notFoundErr, w) ∧
    ((w.watchFor pat failpats useStderr timeout elapsed (fuel + 1)).2).watchFor
        pat2 failpats2 useStderr2 timeout2 elapsed2 (fuel2 + 1) =
      (.notFoundErr, w) := by
  have h1 :
      w.watchFor pat failpats useStderr timeout elapsed (fuel + 1) =
        (.notFoundErr, w) := by
    rw [watchFor_single w qn sq pat failpats useStderr timeout elapsed
      (fuel + 1) hw]
    rw [watchForAux_closed_empty pat failpats timeout elapsed fuel sq hq hc ht]
    obtain ⟨nm, xf, qs, istr, ph, st, rc⟩ := w
    simp only at hw
    subst hw
    rfl
  refine ⟨h1, ?_⟩
  rw [h1]
  rw [watchFor_single w qn sq pat2 failpats2 useStderr2 timeout2 elapsed2
    (fuel2 + 1) hw]
  rw [watchForAux_closed_empty pat2 failpats2 timeout2 elapsed2 fuel2 sq hq hc
    ht2]
  obtain ⟨nm, xf, qs, istr, ph, st, rc⟩ := w
  simp only at hw
  subst hw
  rfl

/-- Witness for C1 at a concrete closed-and-empty endpoint. -/
theorem watchFor_closed_empty_notFound_witness :
    sampleClosedWatcher.watchFor (fun s => s == "x") [] false 5 (fun _ => 0)
        (0 + 1) =
      (.notFoundErr, sampleClosedWatcher) ∧
    ((sampleClosedWatcher.watchFor (fun s => s == "x") [] false 5 (fun _ => 0)
          (0 + 1)).2).watchFor
        (fun s => s == "y") [] true 7 (fun _ => 1) (0 + 1) =
      (.notFoundErr, sampleClosedWatcher) :=
  watchFor_closed_empty_notFound sampleClosedWatcher "q" sampleClosedQueue
    (fun s => s == "x") (fun s => s == "y") [] [] false true 5 7
    (fun _ => 0) (fun _ => 1) 0 0 rfl rfl rfl (by norm_num) (by norm_num)

end Watcher

namespace Watcher

/-- If a record `v` is the first drained record (all earlier non-empty
lines satisfy no failure pattern and not the success pattern) whose
non-empty line matches some failure pattern, the drain loop stops at `v`
with the fail-pattern outcome, leaving the later records undrained. -/
theorem searchDrain_failpat (pat : Pat) (failpats : List Pat) (closed : Bool)
    (pre : List Rec) (v : Rec) (suf : List Rec) (l : String) (fp : Pat)
    (hv : v.line = some l) (hl : l ≠ "") (hfp : fp ∈ failpats)
    (hm : fp l = true)
    (hpre : ∀ r ∈ pre, ∀ l', r.line = some l' → l' ≠ "" →
      (∀ fq ∈ failpats, fq l' = false) ∧ pat l' = false) :
    searchDrain pat failpats closed (pre ++ v :: suf) = (.failPatFound, suf) := by
  induction pre with
  | nil =>
    have hfind : ((failpats.find? fun fq => fq l).isSome) = true := by
      rw [List.find?_isSome]
      exact ⟨fp, hfp, hm⟩
    simp [searchDrain, hv, hl, hfind]
  | cons r pre' ih =>
    have hr := hpre r (List.mem_cons_self r pre')
    have hrest : ∀ r' ∈ pre', ∀ l', r'.line = some l' → l' ≠ "" →
        (∀ fq ∈ failpats, fq l' = false) ∧ pat l' = false :=
      fun r' hr' => hpre r' (List.mem_cons_of_mem r hr')
    cases hline : r.line with
    | none => simpa [searchDrain, hline] using ih hrest
    | some l' =>
      by_cases hl' : l' = ""
      · subst hl'
        simpa [searchDrain, hline] using ih hrest
      · obtain ⟨hfq, hpat⟩ := hr l' hline hl'
        have hfind : (failpats.find? fun fq => fq l') = none := by
          rw [List.find?_eq_none]
          intro fq hfq'
          simp [hfq fq hfq']
        simpa [searchDrain, hline, hl', hfind, hpat] using ih hrest

/-- **C2**: In a single `watchFor` call, each drained non-empty line is
tested against the failure patterns before the success pattern; on the
first failure-pattern match the call raises the fail-pattern-found error
immediately, without testing the success pattern on that line (`pat` may
match `l` too) and without inspecting any later line in that call (the
records after the match stay queued). In particular, when a line matching
a fail pattern is drained strictly before any line matching the success
pattern, fail-pattern-found is raised and the success pattern is never
evaluated against subsequent lines. -/
theorem watchFor_failpat_short_circuit (w : WatcherState) (qn : String)
    (sq : ScanQueue) (pat : Pat) (failpats : List Pat) (useStderr : Bool)
    (timeout : ℚ) (elapsed : ℕ → ℚ) (fuel : ℕ)
    (pre suf : List Rec) (v : Rec) (l : String) (fp : Pat)
    (hw : w.queues = [(qn, sq)]) (hq : sq.q = pre ++ v :: suf)
    (hv : v.line = some l) (hl : l ≠ "") (hfp : fp ∈ failpats)
    (hm : fp l = true)
    (hpre : ∀ r ∈ pre, ∀ l', r.line = some l' → l' ≠ "" →
      (∀ fq ∈ failpats, fq l' = false) ∧ pat l' = false)
    (ht : elapsed 0 ≤ timeout) :
    w.watchFor pat failpats useStderr timeout elapsed (fuel + 1) =
      (.failPatErr, { w with queues := [(qn, { sq with q := suf })] }) := by
  have hdrain := searchDrain_failpat pat failpats sq.closed pre v suf l fp
    hv hl hfp hm hpre
  have hnt : ¬ timeout < elapsed 0 := not_lt.mpr ht
  rw [watchFor_single w qn sq pat failpats useStderr timeout elapsed
    (fuel + 1) hw]
  simp [watchForAux, hnt, internalSearcher, hq, hdrain]

/-- Witness for C2: the line `"bad"` matches the fail pattern before any
line matches the success pattern `"target"`; the call fails fast and the
line `"later"` stays queued. -/
theorem watchFor_failpat_short_circuit_witness :
    sampleBatchWatcher.watchFor (fun s => s == "target")
        [fun s => s == "bad"] false 5 (fun _ => 0) (0 + 1) =
      (.failPatErr,
        { sampleBatchWatcher with
          queues := [("q", { sampleBatchQueue with q := [⟨"w", some "later"⟩] })] }) :=
  watchFor_failpat_short_circuit sampleBatchWatcher "q" sampleBatchQueue
    (fun s => s == "target") [fun s => s == "bad"] false 5 (fun _ => 0) 0
    [⟨"w", some "ok"⟩] [⟨"w", some "later"⟩] ⟨"w", some "bad"⟩ "bad"
    (fun s => s == "bad") rfl rfl rfl (by decide)
    (List.mem_singleton.mpr rfl) rfl
    (by
      intro r hr l' hline hne
      rw [List.mem_singleton] at hr
      subst hr
      simp only at hline
      injection hline with hline
      subst hline
      refine ⟨?_, rfl⟩
      intro fq hfq
      rw [List.mem_singleton] at hfq
      subst hfq
      rfl)
    (by norm_num)

end Watcher

namespace Watcher

/-- **C3**: For every sequence of `put` calls on an OPEN (transformer-free)
queue, the records forwarded to the console sink and the records enqueued
into the private FIFO extend both sequences by one and the same delivered
list — the same lines in the same relative order, with no reordering and
no duplication — and the delivered list is exactly the input sequence with
the `None` and empty-string lines dropped. -/
theorem putList_fanout (lines : List (Option String)) (sq : ScanQueue)
    (hc : sq.closed = false) (hx : sq.xformer = none) :
    ∃ sq' delivered,
      putList sq lines = some sq' ∧
      sq'.q = sq.q ++ delivered ∧
      sq'.disp = sq.disp ++ delivered ∧
      delivered = (lines.filter keepLine).map fun l => (⟨sq.name, l⟩ : Rec) := by
  induction lines generalizing sq with
  | nil => exact ⟨sq, [], rfl, by simp, by simp, by simp⟩
  | cons l ls ih =>
    by_cases hk : keepLine l = true
    · have hp : putPure sq l =
          { sq with
            q := sq.q ++ [⟨sq.name, l⟩],
            disp := sq.disp ++ [⟨sq.name, l⟩] } := by
        rw [putPure_none sq l hx, if_pos hk]
      have hstep : putList sq (l :: ls) = putList (putPure sq l) ls := by
        simp [putList, ScanQueue.put, hc]
      obtain ⟨sq', delivered, h1, h2, h3, h4⟩ := ih (putPure sq l)
        (by rw [putPure_closed]; exact hc)
        (by rw [putPure_xformer]; exact hx)
      refine ⟨sq', ⟨sq.name, l⟩ :: delivered, hstep ▸ h1, ?_, ?_, ?_⟩
      · rw [h2, hp]
        simp
      · rw [h3, hp]
        simp
      · rw [h4]
        simp [List.filter_cons, hk, putPure_name]
    · have hp : putPure sq l = sq := by
        rw [putPure_none sq l hx, if_neg hk]
      have hstep : putList sq (l :: ls) = putList sq ls := by
        simp [putList, ScanQueue.put, hc, hp]
      obtain ⟨sq', delivered, h1, h2, h3, h4⟩ := ih sq hc hx
      refine ⟨sq', delivered, hstep ▸ h1, h2, h3, ?_⟩
      rw [h4]
      simp [List.filter_cons, hk]

/-- Witness for C3 on a concrete input batch containing a `None` and an
empty line. -/
theorem putList_fanout_witness :
    ∃ sq' delivered,
      putList sampleQueue [some "a", none, some "", some "b"] = some sq' ∧
      sq'.q = sampleQueue.q ++ delivered ∧
      sq'.disp = sampleQueue.disp ++ delivered ∧
      delivered = (([some "a", none, some "", some "b"].filter
        keepLine).map fun l => (⟨sampleQueue.name, l⟩ : Rec)) :=
  putList_fanout [some "a", none, some "", some "b"] sampleQueue rfl rfl

end Watcher

namespace Watcher

theorem keepLine_eof : keepLine (some "<<EOF>>") = true := by decide

/-- `close` on an open, transformer-free queue appends the EOF sentinel
record to both streams and marks the queue closed. -/
theorem close_open (sq : ScanQueue) (hc : sq.closed = false)
    (hx : sq.xformer = none) :
    sq.close = some
      { sq with
        q := sq.q ++ [⟨sq.name, some "<<EOF>>"⟩],
        disp := sq.disp ++ [⟨sq.name, some "<<EOF>>"⟩],
        closed := true } := by
  simp [ScanQueue.close, ScanQueue.put, hc, putPure_none sq _ hx, keepLine_eof]

/-- **C4 (counterexample)**: on a stream that terminates by a read
exception, the reader worker delivers TWO sentinel records to the queue —
the `"<<Exception on stream: …>>"` record and then the `"<<EOF>>"` record
— not exactly one as claimed. -/
theorem readWorker_exception_two_sentinels :
    ∃ sq',
      readWorker sampleQueue [ReadEvent.exn "boom"] = some sq' ∧
      List.countP (fun r => isSentinelRec r) sq'.q = 2 ∧
      List.countP (fun r => isSentinelRec r) sq'.q ≠ 1 :=
  ⟨{ name := "w", xformer := none,
     q := [⟨"w", some (excSentinel "boom")⟩, ⟨"w", some "<<EOF>>"⟩],
     disp := [⟨"w", some (excSentinel "boom")⟩, ⟨"w", some "<<EOF>>"⟩],
     closed := true },
   rfl, by decide, by decide⟩

/-- **C4 (amended)**: on every termination of the reading worker of an
open, transformer-free queue, the queue ends CLOSED and accepts no
further `put`; the records delivered during the run are the kept ordinary
lines followed by the terminal records — exactly one sentinel
(`"<<EOF>>"`) on an empty/EOF read, and exactly two terminal records (the
`"<<Exception on stream: …>>"` record followed by `"<<EOF>>"`) on a read
exception. -/
theorem readWorker_termination (sq : ScanQueue) (evs : List ReadEvent)
    (hc : sq.closed = false) (hx : sq.xformer = none)
    (ht : firstTerminal evs ≠ .noTerm) :
    ∃ sq',
      readWorker sq evs = some sq' ∧
      sq'.closed = true ∧
      sq'.q = sq.q ++ ((keptLines evs).map fun l => (⟨sq.name, some l⟩ : Rec))
        ++ sentinelRecs sq.name (firstTerminal evs) ∧
      ∀ l, sq'.put l = none := by
  induction evs generalizing sq with
  | nil => simp [firstTerminal] at ht
  | cons ev rest ih =>
    cases ev with
    | exn m =>
      have hstep : readWorker sq (.exn m :: rest) =
          (putPure sq (some (excSentinel m))).close := by
        simp [readWorker, hc, ScanQueue.put]
      have hp : putPure sq (some (excSentinel m)) =
          { sq with
            q := sq.q ++ [⟨sq.name, some (excSentinel m)⟩],
            disp := sq.disp ++ [⟨sq.name, some (excSentinel m)⟩] } := by
        rw [putPure_none sq _ hx, if_pos (keepLine_excSentinel m)]
      rw [hstep, hp,
        close_open
          { sq with
            q := sq.q ++ [⟨sq.name, some (excSentinel m)⟩],
            disp := sq.disp ++ [⟨sq.name, some (excSentinel m)⟩] } hc hx]
      refine ⟨_, rfl, rfl, ?_, fun l => by simp [ScanQueue.put]⟩
      simp [firstTerminal, keptLines, sentinelRecs]
    | line l =>
      by_cases hl : l = ""
      · subst hl
        have hstep : readWorker sq (.line "" :: rest) = sq.close := by
          simp [readWorker, hc]
        rw [hstep, close_open sq hc hx]
        refine ⟨_, rfl, rfl, ?_, fun l => by simp [ScanQueue.put]⟩
        simp [firstTerminal, keptLines, sentinelRecs]
      · have hstep : readWorker sq (.line l :: rest) =
            readWorker (putPure sq (some (pyRstrip l))) rest := by
          simp [readWorker, hc, hl, ScanQueue.put]
        have htr : firstTerminal rest ≠ .noTerm := by
          simpa [firstTerminal, hl] using ht
        by_cases hk : pyRstrip l = ""
        · have hp : putPure sq (some (pyRstrip l)) = sq := by
            rw [putPure_none sq _ hx, if_neg (by simp [keepLine, hk])]
          obtain ⟨sq', h1, h2, h3, h4⟩ := ih sq hc hx htr
          refine ⟨sq', by rw [hstep, hp]; exact h1, h2, ?_, h4⟩
          rw [h3]
          simp [firstTerminal, keptLines, hl, hk]
        · have hkeep : keepLine (some (pyRstrip l)) = true := by
            simp [keepLine, hk]
          have hp : putPure sq (some (pyRstrip l)) =
              { sq with
                q := sq.q ++ [⟨sq.name, some (pyRstrip l)⟩],
                disp := sq.disp ++ [⟨sq.name, some (pyRstrip l)⟩] } := by
            rw [putPure_none sq _ hx, if_pos hkeep]
          obtain ⟨sq', h1, h2, h3, h4⟩ := ih (putPure sq (some (pyRstrip l)))
            (by rw [putPure_closed]; exact hc)
            (by rw [putPure_xformer]; exact hx) htr
          refine ⟨sq', by rw [hstep]; exact h1, h2, ?_, h4⟩
          rw [h3, hp]
          simp [firstTerminal, keptLines, hl, hk, putPure_name]

/-- Witness for the amended C4 on a concrete stream: one ordinary line,
then EOF. -/
theorem readWorker_termination_witness :
    ∃ sq',
      readWorker sampleQueue [ReadEvent.line "a\n", ReadEvent.line ""] =
        some sq' ∧
      sq'.closed = true ∧
      sq'.q = sampleQueue.q ++
        ((keptLines [ReadEvent.line "a\n", ReadEvent.line ""]).map
          fun l => (⟨sampleQueue.name, some l⟩ : Rec)) ++
        sentinelRecs sampleQueue.name
          (firstTerminal [ReadEvent.line "a\n", ReadEvent.line ""]) ∧
      ∀ l, sq'.put l = none :=
  readWorker_termination sampleQueue [ReadEvent.line "a\n", ReadEvent.line ""]
    rfl rfl (by decide)

end Watcher

namespace Watcher

theorem putPure_recInv (sq : ScanQueue) (l : Option String) (h : recInv sq) :
    recInv (putPure sq l) := by
  unfold recInv at h ⊢
  unfold putPure
  split
  · rename_i hk
    intro r hr
    simp only [List.mem_append, List.mem_singleton] at hr
    rcases hr with hr | hr
    · exact h r hr
    · subst hr
      simpa using (keepLine_iff _).mp hk
  · exact h

theorem put_recInv (sq sq' : ScanQueue) (l : Option String) (h : recInv sq)
    (hput : sq.put l = some sq') : recInv sq' := by
  unfold ScanQueue.put at hput
  by_cases hc : sq.closed = true
  · simp [hc] at hput
  · simp [hc] at hput
    subst hput
    exact putPure_recInv sq l h

theorem close_recInv (sq sq' : ScanQueue) (h : recInv sq)
    (hcl : sq.close = some sq') : recInv sq' := by
  unfold ScanQueue.close ScanQueue.put at hcl
  by_cases hc : sq.closed = true
  · simp [hc] at hcl
  · simp [hc] at hcl
    subst hcl
    have hp := putPure_recInv sq (some "<<EOF>>") h
    unfold recInv at hp ⊢
    simpa using hp

theorem readWorker_recInv (sq : ScanQueue) (evs : List ReadEvent)
    (sq' : ScanQueue) (h : recInv sq)
    (hrw : readWorker sq evs = some sq') : recInv sq' := by
  induction evs generalizing sq with
  | nil =>
    unfold readWorker at hrw
    by_cases hc : sq.closed = true
    · simp [hc] at hrw
      subst hrw
      exact h
    · simp [hc] at hrw
  | cons ev rest ih =>
    unfold readWorker at hrw
    by_cases hc : sq.closed = true
    · simp [hc] at hrw
      subst hrw
      exact h
    · simp only [hc, if_false, Bool.false_eq_true] at hrw
      cases ev with
      | exn m =>
        have hrw2 : (sq.put (some (excSentinel m))).bind ScanQueue.close =
            some sq' := hrw
        cases hput : sq.put (some (excSentinel m)) with
        | none => simp [hput] at hrw2
        | some sq1 =>
          rw [hput] at hrw2
          simp only [Option.some_bind] at hrw2
          exact close_recInv sq1 sq' (put_recInv sq sq1 _ h hput) hrw2
      | line l =>
        have hrw2 : (if l = "" then sq.close
            else (sq.put (some (pyRstrip l))).bind
              fun sq2 => readWorker sq2 rest) = some sq' := hrw
        by_cases hl : l = ""
        · rw [if_pos hl] at hrw2
          exact close_recInv sq sq' h hrw2
        · rw [if_neg hl] at hrw2
          cases hput : sq.put (some (pyRstrip l)) with
          | none => simp [hput] at hrw2
          | some sq1 =>
            rw [hput] at hrw2
            simp only [Option.some_bind] at hrw2
            exact ih sq1 (put_recInv sq sq1 _ h hput) hrw2

/-- **C5**: every record reachable in the private FIFO has a line that is
neither `None` nor the empty string: `put` drops such lines (after the
optional transform) before enqueueing, and the reader worker only adds
records through `put`, so consumers only ever see non-empty lines
(ordinary or sentinel). -/
theorem queue_lines_never_empty :
    (∀ (sq : ScanQueue) (l : Option String) (sq' : ScanQueue),
      recInv sq → sq.put l = some sq' → recInv sq') ∧
    (∀ (sq : ScanQueue) (evs : List ReadEvent) (sq' : ScanQueue),
      recInv sq → readWorker sq evs = some sq' → recInv sq') :=
  ⟨fun sq l sq' h hput => put_recInv sq sq' l h hput,
   fun sq evs sq' h hrw => readWorker_recInv sq evs sq' h hrw⟩

/-- Witness for C5: the invariant holds after a concrete `put` and after a
concrete worker run ending in a read exception. -/
theorem queue_lines_never_empty_witness :
    recInv (putPure sampleQueue (some "hi")) ∧
    recInv
      { name := "w", xformer := none,
        q := [⟨"w", some (excSentinel "b")⟩, ⟨"w", some "<<EOF>>"⟩],
        disp := [⟨"w", some (excSentinel "b")⟩, ⟨"w", some "<<EOF>>"⟩],
        closed := true } :=
  ⟨queue_lines_never_empty.1 sampleQueue (some "hi") _
      (by simp [recInv, sampleQueue, freshQueue]) rfl,
   queue_lines_never_empty.2 sampleQueue [ReadEvent.exn "b"] _
      (by simp [recInv, sampleQueue, freshQueue]) rfl⟩

end Watcher

namespace Watcher

/-- **C6 (code bug)**: for every value `v`, `send(json=v)` on an endpoint
with an attached input sink does not serialize and write `v` — it raises
`TypeError`, because the source calls the two-argument file serializer
`json.dump(js)` (instead of `json.dumps(js)`) with a single argument, so
nothing reaches the input sink. -/
theorem send_json_raises_typeError :
    ∀ (α : Type) (v : α),
      sampleStartedWatcher.send (SendForm.js v) =
        PyResult.exn
          "TypeError: dump() missing 1 required positional argument: fp" :=
  fun _ _ => rfl

/-- **C8**: on an endpoint whose stream-attaching call has already
succeeded (`started = true`), every second stream-attaching call —
subprocess, socket, serial or ssh — returns early with a failure (`false`,
Python `None`, after printing a diagnostic) and leaves the endpoint state,
including its queues, input sink and process handle, exactly as it was. -/
theorem second_attach_is_noop (w : WatcherState) (hs : w.started = true)
    (cmdargs : List String) (hproc hstdin hsock hser : ℕ)
    (serialAvailable : Bool) (host : String × ℕ) (sport : String)
    (speed : ℕ) (user shost : String) (port : Option ℕ) :
    w.subprocess cmdargs hproc hstdin = (w, false) ∧
    w.socket host hsock = (w, false) ∧
    w.serial serialAvailable sport speed hser = (w, false) ∧
    w.ssh user shost port hproc hstdin = (w, false) := by
  refine ⟨?_, ?_, ?_, ?_⟩
  · simp [WatcherState.subprocess, hs]
  · simp [WatcherState.socket, hs]
  · cases serialAvailable <;> simp [WatcherState.serial, hs]
  · simp [WatcherState.ssh, hs]

/-- Witness for C8 on a concrete already-attached endpoint. -/
theorem second_attach_is_noop_witness :
    sampleStartedWatcher.subprocess ["echo", "hi"] 2 3 =
      (sampleStartedWatcher, false) ∧
    sampleStartedWatcher.socket ("localhost", 9000) 4 =
      (sampleStartedWatcher, false) ∧
    sampleStartedWatcher.serial true "/dev/ACM0" 9600 5 =
      (sampleStartedWatcher, false) ∧
    sampleStartedWatcher.ssh "dave" "host" (some 22) 6 7 =
      (sampleStartedWatcher, false) :=
  second_attach_is_noop sampleStartedWatcher rfl ["echo", "hi"] 2 3 4 5 true
    ("localhost", 9000) "/dev/ACM0" 9600 "dave" "host" (some 22)

/-- **C9**: `send` with positional text pieces strips each piece, joins
them with single spaces, appends CRLF, UTF-8-encodes the result and hands
it to the input sink; and `send` in any form on an endpoint with no
attached input sink is a silent no-op (no exception, nothing written). -/
theorem send_text_strip_join_crlf :
    (∀ (α : Type) (w : WatcherState) (args : List String),
      w.istream.isSome = true →
      w.send (SendForm.text args : SendForm α) =
        .ok (some (encodeUtf8
          (String.intercalate " " (args.map pyStrip) ++ "\r\n")))) ∧
    (∀ (α : Type) (w : WatcherState) (form : SendForm α),
      w.istream = none → w.send form = .ok none) := by
  constructor
  · intro α w args hs
    cases hi : w.istream with
    | none => rw [hi] at hs; simp at hs
    | some s => simp [WatcherState.send, hi]
  · intro α w form hn
    simp [WatcherState.send, hn]

/-- Witness for C9: a concrete two-piece text send, and a sink-less no-op. -/
theorem send_text_strip_join_crlf_witness :
    sampleStartedWatcher.send (SendForm.text ["  hi ", "there"] : SendForm Unit) =
      .ok (some (encodeUtf8
        (String.intercalate " " (["  hi ", "there"].map pyStrip) ++ "\r\n"))) ∧
    sampleClosedWatcher.send (SendForm.raw [104] : SendForm Unit) = .ok none :=
  ⟨send_text_strip_join_crlf.1 Unit sampleStartedWatcher ["  hi ", "there"] rfl,
   send_text_strip_join_crlf.2 Unit sampleClosedWatcher (SendForm.raw [104]) rfl⟩

end Watcher

namespace Watcher

/-- **C10**: after a stream terminates, the sentinel is enqueued into the
private FIFO as an ordinary non-empty record, and `watchFor` inspects it
like any other line: a success pattern matching the sentinel text (with no
fail pattern matching it) makes the call return a match instead of raising
not-found, while a fail pattern matching it raises fail-pattern-found. -/
theorem watchFor_sees_sentinel (w : WatcherState) (qn : String)
    (sq0 sq1 : ScanQueue) (pat : Pat) (failpats : List Pat)
    (useStderr : Bool) (timeout : ℚ) (elapsed : ℕ → ℚ) (fuel : ℕ)
    (hc : sq0.closed = false) (hx : sq0.xformer = none) (hq : sq0.q = [])
    (hcl : sq0.close = some sq1) (hw : w.queues = [(qn, sq1)])
    (ht : elapsed 0 ≤ timeout) :
    sq1.q = [⟨sq0.name, some "<<EOF>>"⟩] ∧
    (pat "<<EOF>>" = true → (∀ fp ∈ failpats, fp "<<EOF>>" = false) →
      (w.watchFor pat failpats useStderr timeout elapsed (fuel + 1)).1 =
        .found "<<EOF>>") ∧
    ((∃ fp ∈ failpats, fp "<<EOF>>" = true) →
      (w.watchFor pat failpats useStderr timeout elapsed (fuel + 1)).1 =
        .failPatErr) := by
  rw [close_open sq0 hc hx] at hcl
  have hsq1 : sq1 =
      { sq0 with
        q := sq0.q ++ [⟨sq0.name, some "<<EOF>>"⟩],
        disp := sq0.disp ++ [⟨sq0.name, some "<<EOF>>"⟩],
        closed := true } := by
    injection hcl with hcl
    exact hcl.symm
  subst hsq1
  have hnt : ¬ timeout < elapsed 0 := not_lt.mpr ht
  have heof : ¬ ("<<EOF>>" : String) = "" := by decide
  refine ⟨by simp [hq], ?_, ?_⟩
  · intro hpat hfa
    have hfind : (failpats.find? fun fp => fp "<<EOF>>") = none := by
      rw [List.find?_eq_none]
      intro fp hfp
      simp [hfa fp hfp]
    rw [watchFor_single w qn _ pat failpats useStderr timeout elapsed
      (fuel + 1) hw]
    simp [watchForAux, hnt, internalSearcher, hq, searchDrain, heof, hfind,
      hpat]
  · intro hex
    have hfind : ((failpats.find? fun fp => fp "<<EOF>>").isSome) = true := by
      rw [List.find?_isSome]
      exact hex
    rw [watchFor_single w qn _ pat failpats useStderr timeout elapsed
      (fuel + 1) hw]
    simp [watchForAux, hnt, internalSearcher, hq, searchDrain, heof, hfind]

/-- Witness for C10: on an endpoint holding just the queued EOF sentinel,
a success pattern matching `"<<EOF>>"` returns a match. -/
theorem watchFor_sees_sentinel_witness :
    (sampleEofWatcher.watchFor (fun s => s == "<<EOF>>") [] false 5
        (fun _ => 0) (0 + 1)).1 = .found "<<EOF>>" := by
  obtain ⟨h1, h2, h3⟩ := watchFor_sees_sentinel sampleEofWatcher "q"
    sampleQueue sampleEofQueue (fun s => s == "<<EOF>>") [] false 5
    (fun _ => 0) 0 rfl rfl rfl rfl rfl (by norm_num)
  exact h2 rfl (by intro fp hfp; cases hfp)

end Watcher

namespace ansi_color

/-- **C7 (counterexample)**: after ten `getnextcolor()` calls the shared
color counter is 10; the next `getnextstyle()` call then returns
`"normal"`, which is the first entry of the style palette — the entry the
claim says is never produced. -/
theorem getnextstyle_returns_first_entry :
    (getnextstyle (colorCalls 10 ⟨0, 0⟩)).2 = "normal" ∧
    styles.head? = some "normal" := by
  constructor
  · rfl
  · rfl

/-- **C7 (amended)**: every `getnextcolor()` call returns a palette entry
other than the first (`"black"`) and the last (`"nochange"`) of the color
palette; every `getnextstyle()` call returns a palette entry other than
the last (`"nochange"`) of the style palette, but — unlike the claim — it
can return the first entry (`"normal"`), since it indexes with
`% (len - 1)` starting at offset 0 (and by the shared color counter). -/
theorem getnext_skips_terminal_entries (s : AnsiState) :
    (getnextcolor s).2 ≠ "black" ∧ (getnextcolor s).2 ≠ "nochange" ∧
    (getnextcolor s).2 ∈ colors ∧
    (getnextstyle s).2 ≠ "nochange" ∧ (getnextstyle s).2 ∈ styles := by
  have hc : (s.colorIndex + 1) % 7 < 7 := Nat.mod_lt _ (by norm_num)
  have hs : s.colorIndex % 10 < 10 := Nat.mod_lt _ (by norm_num)
  obtain ⟨r, hrlt, hr⟩ : ∃ r, r < 7 ∧ (s.colorIndex + 1) % 7 = r :=
    ⟨_, hc, rfl⟩
  obtain ⟨t, htlt, htdef⟩ : ∃ t, t < 10 ∧ s.colorIndex % 10 = t :=
    ⟨_, hs, rfl⟩
  have hcol : (getnextcolor s).2 = colors.getD (1 + r) "" := by
    simp only [getnextcolor]
    rw [show colors.length - 2 = 7 from rfl, hr]
  have hsty : (getnextstyle s).2 = styles.getD t "" := by
    simp only [getnextstyle]
    rw [show styles.length - 1 = 10 from rfl, htdef]
    simp
  rw [hcol, hsty]
  interval_cases r <;> interval_cases t <;> refine ⟨?_, ?_, ?_, ?_, ?_⟩ <;>
    decide

end ansi_color
